import Mathlib

/-!
Verification development for the cc-sync-session tool: a shallow embedding of
the path-identifier codec (src/file_path_converter.rs) and the incremental
sync engine (src/sync/mod.rs) over the abstract FileSystem capability
(src/filesystem/mod.rs), with the in-memory mock store (src/mock.rs) as the
concrete instance.

Modelling conventions:
- Rust String operations are modelled on the underlying character list
  (String in Lean is a structure holding a List Char), with single-character
  str::replace rendered as a character map and multi-character str::replace
  as an explicit leftmost non-overlapping rewrite.
- Filesystem paths inside the sync engine are modelled as lists of path
  segments (an absolute path /a/b is the list consisting of a and b); PathBuf
  equality in Rust compares components, which this representation matches.
- SystemTime is modelled as Nat; the ambient clock (SystemTime::now) is a
  parameter threaded explicitly.
- Fallible Rust calls returning Result are modelled with Except; interior
  mutability of the filesystem is modelled by explicit state passing.
-/

deriving instance DecidableEq for Except

/-! ## Whole-path codec: src/file_path_converter.rs -/

/-- Character-level replace: Rust str::replace with a single-character
pattern and single-character replacement is a pointwise character map. -/
def replaceChar (a b : Char) (s : String) : String :=
  ⟨s.data.map fun c => if c = a then b else c⟩

/-- Rust trim_start_matches with a slash pattern: drop every leading slash. -/
def trimLeadingSlashes (s : String) : String :=
  ⟨s.data.dropWhile fun c => decide (c = '/')⟩

/-- Unix Path::is_absolute: the path has a root, i.e. starts with a slash. -/
def isAbsolutePath (s : String) : Bool :=
  match s.data with
  | '/' :: _ => true
  | _ => false

/-- Embedding of dir_path_to_claude_code_stype (file_path_converter.rs lines
4-21).  The Rust function queries the ambient filesystem through
dir_path.is_file(); that query result is passed here as the explicit
argument is_file.  On success the function strips leading slashes, turns
every remaining slash into a hyphen, then every dot into a hyphen, and
prepends one hyphen. -/
def dir_path_to_claude_code_stype (is_file : Bool) (dir_path : String) :
    Except String String :=
  if !isAbsolutePath dir_path then .error "Path must be absolute"
  else if is_file then .error "Path must be a directory, not a file"
  else .ok ⟨'-' ::
    (replaceChar '.' '-' (replaceChar '/' '-' (trimLeadingSlashes dir_path))).data⟩

/-- Rust strip_prefix with a hyphen pattern: remove one leading hyphen if
present, otherwise keep the string unchanged. -/
def stripLeadingDash (s : String) : String :=
  match s.data with
  | '-' :: rest => ⟨rest⟩
  | _ => s

/-- Embedding of claude_code_stype_to_file_path (file_path_converter.rs lines
23-41): strip one leading hyphen if present, replace hyphens with slashes,
prepend a slash; the returned BTreeSet holds exactly that one candidate and
is modelled as a one-element list. -/
def claude_code_stype_to_file_path (code_stype : String) : List String :=
  [⟨'/' :: (replaceChar '-' '/' (stripLeadingDash code_stype)).data⟩]

/-! ## Multi-character replace, for convert_hyphenated_path -/

/-- Leftmost non-overlapping rewrite of every occurrence of the nonempty
pattern pat by rep, matching Rust str::replace with a string pattern.  The
recursion is driven by a fuel argument so that it is structural (and hence
evaluates inside the kernel); every step consumes at least one character, so
fuel equal to the length of the input list always suffices. -/
def replaceAux (pat rep : List Char) : Nat → List Char → List Char
  | _, [] => []
  | 0, l => l
  | fuel + 1, c :: rest =>
    if pat.isPrefixOf (c :: rest) then
      rep ++ replaceAux pat rep fuel ((c :: rest).drop pat.length)
    else
      c :: replaceAux pat rep fuel rest

/-- Rust str::replace with a string pattern (empty patterns never occur in
the embedded code; they are mapped to the identity). -/
def replaceList (pat rep l : List Char) : List Char :=
  match pat with
  | [] => l
  | _ :: _ => replaceAux pat rep l.length l

/-- String wrapper around replaceList. -/
def strReplace (s pat rep : String) : String :=
  ⟨replaceList pat.data rep.data s.data⟩

/-- The domain extensions protected by convert_hyphenated_path
(sync/mod.rs line 188), in source order. -/
def domain_extensions : List String :=
  [".com", ".org", ".net", ".io", ".dev", ".ai"]

/-- One pass of the protection loop in convert_hyphenated_path: if the
extension occurs in the string (Rust str::contains with a string pattern),
replace its dot by the sentinel. -/
def protectExtension (r ext : String) : String :=
  if ext.data <:+: r.data then
    strReplace r ext (strReplace ext "." "!DOT!")
  else r

/-- Embedding of SessionSyncer::convert_hyphenated_path (sync/mod.rs lines
186-211): protect each recognized domain extension with a sentinel,
replace hyphens by slashes, restore the sentinel to a dot, and drop one
leading slash if present. -/
def convert_hyphenated_path (name : String) : String :=
  let r := domain_extensions.foldl protectExtension name
  let r := strReplace r "-" "/"
  let r := strReplace r "!DOT!" "."
  if r.data.head? = some '/' then ⟨r.data.drop 1⟩ else r

/-! ## Sync engine data model: src/filesystem/mod.rs and src/sync/mod.rs

Paths are segment lists: the absolute path /a/b is the list holding a and b.
PathBuf equality in Rust compares components, which this matches. -/

/-- A filesystem path, as its list of components. -/
abbrev FsPath := List String

/-- Rust Path::parent on an absolute path: none for the root, otherwise the
path with its last component removed. -/
def parentPath : FsPath → Option FsPath
  | [] => none
  | p => some p.dropLast

/-- Rust Path::display for an absolute path. -/
def pathDisplay (p : FsPath) : String :=
  "/" ++ String.intercalate "/" p

/-- Errors of the storage capability (filesystem/mod.rs lines 9-19). -/
inductive FsError where
  | Io : String → FsError
  | PathError : String → FsError
  | NotFound : FsPath → FsError
deriving DecidableEq

/-- Display of FileSystemError, following its thiserror attributes. -/
def FsError.display : FsError → String
  | .Io s => "IO error: " ++ s
  | .PathError s => "Path error: " ++ s
  | .NotFound p => "Not found: " ++ pathDisplay p

/-- EntryMetadata (filesystem/mod.rs lines 23-28). -/
structure EntryMetadata where
  path : FsPath
  modified : Nat
  is_directory : Bool
deriving DecidableEq

/-- SyncOptions (sync/mod.rs lines 8-12). -/
structure SyncOptions where
  dry_run : Bool
  verbose : Bool
deriving DecidableEq

/-- SyncResult (sync/mod.rs lines 23-29). -/
structure SyncResult where
  files_copied : Nat
  files_skipped : Nat
  directories_created : Nat
  errors : List String
deriving DecidableEq

/-- The abstract FileSystem trait (filesystem/mod.rs lines 30-42), with the
interior mutability of implementations made explicit: mutating operations
return a new state.  The trait method named exists is rendered pathExists. -/
structure FSOps (σ : Type) where
  list_directory : σ → FsPath → Except FsError (List EntryMetadata)
  get_metadata : σ → FsPath → Except FsError EntryMetadata
  copy_file : σ → FsPath → FsPath → Except FsError σ
  create_directory : σ → FsPath → Except FsError σ
  pathExists : σ → FsPath → Except FsError Bool
  set_modified_time : σ → FsPath → Nat → Except FsError σ

/-- Rust Path::strip_prefix, on component lists; a mismatch produces the
PathError wrapping the StripPrefixError display text, as at sync/mod.rs
lines 65-66 and 81-82. -/
def stripPrefixPath (p base : FsPath) : Except FsError FsPath :=
  if base.isPrefixOf p then .ok (p.drop base.length)
  else .error (.PathError "prefix not found")

/-- Split a component string at slashes (PathBuf re-parses components that
contain slashes when the collected path is used). -/
def splitSlashAux (cur : List Char) : List Char → List (List Char)
  | [] => [cur.reverse]
  | c :: rest =>
    if c = '/' then cur.reverse :: splitSlashAux [] rest
    else splitSlashAux (c :: cur) rest

/-- String front end of splitSlashAux. -/
def splitOnSlashStr (s : String) : List String :=
  (splitSlashAux [] s.data).map fun l => ⟨l⟩

/-- The component loop of SessionSyncer::convert_directory_name (sync/mod.rs
lines 158-184): the first component is rewritten through
convert_hyphenated_path when it contains a hyphen; non-normal components
(dot and dot-dot) hit the unexpected-component error arm. -/
def convert_components : Bool → List String → Except FsError (List String)
  | _, [] => .ok []
  | isFirst, s :: rest =>
    if s = "." ∨ s = ".." then
      .error (.PathError "Unexpected path component type")
    else
      let conv := if isFirst && s.data.contains '-' then convert_hyphenated_path s else s
      match convert_components false rest with
      | .ok tail => .ok (conv :: tail)
      | .error e => .error e

/-- SessionSyncer::convert_directory_name: convert the components, then
normalize the collected PathBuf (components containing slashes split into
real components; empty components vanish). -/
def convert_directory_name (p : FsPath) : Except FsError FsPath :=
  match convert_components true p with
  | .error e => .error e
  | .ok comps => .ok (((comps.map splitOnSlashStr).flatten).filter fun s => s ≠ "")

/-- SessionSyncer::should_copy_file (sync/mod.rs lines 146-156); the
question-mark operator is rendered as an explicit match on each call. -/
def should_copy_file (fs : FSOps σ) (st : σ) (source target : FsPath) :
    Except FsError Bool :=
  match fs.pathExists st target with
  | .error e => .error e
  | .ok ex =>
    if !ex then .ok true
    else
      match fs.get_metadata st source with
      | .error e => .error e
      | .ok source_metadata =>
        match fs.get_metadata st target with
        | .error e => .error e
        | .ok target_metadata =>
          .ok (decide (source_metadata.modified > target_metadata.modified))

/-- The error string pushed at sync/mod.rs line 136. -/
def errString (source_path : FsPath) (e : FsError) : String :=
  "Error checking file " ++ pathDisplay source_path ++ ": " ++ FsError.display e

/-- The ensure-parent-directory step inlined at sync/mod.rs lines 106-112:
before a copy, create the parent of the target path if it does not exist, and
count the creation. -/
def ensureParentDir (fs : FSOps σ) (st : σ) (res : SyncResult)
    (target_path : FsPath) : Except FsError (σ × SyncResult) :=
  match parentPath target_path with
  | some par =>
    match fs.pathExists st par with
    | .error e => .error e
    | .ok ex =>
      if !ex then
        match fs.create_directory st par with
        | .error e => .error e
        | .ok st1 =>
          .ok (st1, { res with directories_created := res.directories_created + 1 })
      else .ok (st, res)
  | none => .ok (st, res)

/-- The body of the per-entry for loop of SessionSyncer::sync (sync/mod.rs
lines 79-140), the question-mark operator rendered as explicit matches.
Returns the updated state, the updated result, and the list of directories
this entry pushes onto the traversal queue.  A failure of set_modified_time
is swallowed (lines 118-122); a failure of should_copy_file is recorded as
an error string (lines 135-137); failures of the other storage calls
propagate. -/
def processEntry (fs : FSOps σ) (opts : SyncOptions) (now : Nat)
    (source_dir target_dir : FsPath) (st : σ) (res : SyncResult)
    (entry : EntryMetadata) : Except FsError (σ × SyncResult × List FsPath) :=
  match stripPrefixPath entry.path source_dir with
  | .error e => .error e
  | .ok relative_path =>
    match convert_directory_name relative_path with
    | .error e => .error e
    | .ok converted_path =>
      if entry.is_directory then
        match fs.pathExists st (target_dir ++ converted_path) with
        | .error e => .error e
        | .ok ex =>
          if !ex then
            match (if !opts.dry_run then
                fs.create_directory st (target_dir ++ converted_path)
              else .ok st) with
            | .error e => .error e
            | .ok st1 =>
              .ok (st1,
                { res with directories_created := res.directories_created + 1 },
                [entry.path])
          else .ok (st, res, [entry.path])
      else
        match should_copy_file fs st entry.path (target_dir ++ converted_path) with
        | .ok true =>
          if !opts.dry_run then
            match ensureParentDir fs st res (target_dir ++ converted_path) with
            | .error e => .error e
            | .ok pr =>
              match fs.copy_file pr.1 entry.path (target_dir ++ converted_path) with
              | .error e => .error e
              | .ok st2 =>
                .ok (match fs.set_modified_time st2 (target_dir ++ converted_path) now with
                    | .ok s => s
                    | .error _ => st2,
                  { pr.2 with files_copied := pr.2.files_copied + 1 }, [])
          else
            .ok (st, { res with files_copied := res.files_copied + 1 }, [])
        | .ok false =>
          .ok (st, { res with files_skipped := res.files_skipped + 1 }, [])
        | .error e =>
          .ok (st,
            { res with errors := res.errors ++ [errString entry.path e] }, [])

/-- The for loop over one directory listing. -/
def processEntries (fs : FSOps σ) (opts : SyncOptions) (now : Nat)
    (source_dir target_dir : FsPath) :
    σ → SyncResult → List EntryMetadata → Except FsError (σ × SyncResult × List FsPath)
  | st, res, [] => .ok (st, res, [])
  | st, res, entry :: rest =>
    match processEntry fs opts now source_dir target_dir st res entry with
    | .error e => .error e
    | .ok (st', res', dirs) =>
      match processEntries fs opts now source_dir target_dir st' res' rest with
      | .error e => .error e
      | .ok (st'', res'', dirs') => .ok (st'', res'', dirs ++ dirs')

/-- The while loop of SessionSyncer::sync (sync/mod.rs lines 63-141), with an
explicit fuel bound standing in for the unbounded loop; a listing failure
skips the directory and continues with the rest of the queue (lines 69-77);
new directories are pushed to the back of the queue. -/
def syncLoop (fs : FSOps σ) (opts : SyncOptions) (now : Nat)
    (source_dir target_dir : FsPath) :
    Nat → σ → List FsPath → SyncResult → Except FsError (SyncResult × σ)
  | _, st, [], res => .ok (res, st)
  | 0, _, _ :: _, _ => .error (.Io "sync loop out of fuel")
  | fuel + 1, st, current :: queue, res =>
    match stripPrefixPath current source_dir with
    | .error e => .error e
    | .ok _relative_dir =>
      match fs.list_directory st current with
      | .error _ => syncLoop fs opts now source_dir target_dir fuel st queue res
      | .ok entries =>
        match processEntries fs opts now source_dir target_dir st res entries with
        | .error e => .error e
        | .ok (st', res', newdirs) =>
          syncLoop fs opts now source_dir target_dir fuel st' (queue ++ newdirs) res'

/-- SessionSyncer::sync (sync/mod.rs lines 40-144): ensure the target root
exists (counting its creation, suppressed by dry run), then drain the
queue seeded with the source directory itself. -/
def sync (fs : FSOps σ) (st : σ) (source_dir target_dir : FsPath)
    (opts : SyncOptions) (now : Nat) (fuel : Nat) :
    Except FsError (SyncResult × σ) :=
  match fs.pathExists st target_dir with
  | .error e => .error e
  | .ok ex =>
    match ((if !ex then
        match (if !opts.dry_run then fs.create_directory st target_dir
          else .ok st) with
        | .error e => .error e
        | .ok st1 => .ok (st1, (⟨0, 0, 1, []⟩ : SyncResult))
      else
        .ok (st, (⟨0, 0, 0, []⟩ : SyncResult))) : Except FsError (σ × SyncResult)) with
    | .error e => .error e
    | .ok str =>
      syncLoop fs opts now source_dir target_dir fuel str.1 [source_dir] str.2

/-! ## The in-memory mock store: src/mock.rs -/

/-- MockFile (mock.rs lines 8-12); byte contents as a list of Nat. -/
structure MockFile where
  content : List Nat
  modified : Nat
deriving DecidableEq

/-- MockFileSystem state (mock.rs lines 14-18): a file map with unique keys
in insertion order, and a directory list in insertion order; the ambient
clock used for directory timestamps is carried alongside. -/
structure MockState where
  files : List (FsPath × MockFile)
  dirs : List FsPath
  now : Nat
deriving DecidableEq

/-- HashMap get. -/
def lookupFile (st : MockState) (p : FsPath) : Option MockFile :=
  (st.files.find? fun fp => decide (fp.1 = p)).map (·.2)

/-- HashMap insert: replace the binding if the key is present, else append. -/
def insertFile (files : List (FsPath × MockFile)) (p : FsPath) (f : MockFile) :
    List (FsPath × MockFile) :=
  if files.any fun fp => decide (fp.1 = p) then
    files.map fun fp => if fp.1 = p then (p, f) else fp
  else files ++ [(p, f)]

/-- MockFileSystem::list_directory (mock.rs lines 54-92): error when the
listed path is neither the empty path nor a registered directory; files
whose parent is the listed path come first, then subdirectories, which are
stamped with the ambient clock. -/
def mockList (st : MockState) (path : FsPath) : Except FsError (List EntryMetadata) :=
  if path ≠ [] ∧ path ∉ st.dirs then .error (.NotFound path)
  else .ok
    (((st.files.filter fun fp => decide (parentPath fp.1 = some path)).map
        fun fp => { path := fp.1, modified := fp.2.modified, is_directory := false }) ++
      ((st.dirs.filter fun d => decide (parentPath d = some path ∧ d ≠ path)).map
        fun d => { path := d, modified := st.now, is_directory := true }))

/-- MockFileSystem::get_metadata (mock.rs lines 94-113). -/
def mockGetMetadata (st : MockState) (path : FsPath) : Except FsError EntryMetadata :=
  match lookupFile st path with
  | some f => .ok { path := path, modified := f.modified, is_directory := false }
  | none =>
    if path ∈ st.dirs then
      .ok { path := path, modified := st.now, is_directory := true }
    else .error (.NotFound path)

/-- MockFileSystem::copy_file (mock.rs lines 115-124). -/
def mockCopyFile (st : MockState) (src dst : FsPath) : Except FsError MockState :=
  match lookupFile st src with
  | none => .error (.NotFound src)
  | some f => .ok { st with files := insertFile st.files dst f }

/-- MockFileSystem::create_directory via add_directory (mock.rs lines 34-40,
126-129): append if not already present; never fails. -/
def mockCreateDirectory (st : MockState) (p : FsPath) : Except FsError MockState :=
  .ok { st with dirs := if p ∈ st.dirs then st.dirs else st.dirs ++ [p] }

/-- MockFileSystem::exists (mock.rs lines 131-136): never fails. -/
def mockPathExists (st : MockState) (p : FsPath) : Except FsError Bool :=
  .ok ((st.files.any fun fp => decide (fp.1 = p)) || decide (p ∈ st.dirs))

/-- MockFileSystem::set_modified_time (mock.rs lines 138-147). -/
def mockSetModifiedTime (st : MockState) (p : FsPath) (t : Nat) :
    Except FsError MockState :=
  if st.files.any fun fp => decide (fp.1 = p) then
    .ok { st with files := st.files.map fun fp =>
      if fp.1 = p then (fp.1, { fp.2 with modified := t }) else fp }
  else .error (.NotFound p)

/-- The mock storage capability. -/
def mockFS : FSOps MockState :=
  { list_directory := mockList
    get_metadata := mockGetMetadata
    copy_file := mockCopyFile
    create_directory := mockCreateDirectory
    pathExists := mockPathExists
    set_modified_time := mockSetModifiedTime }

/-- Result fields of a sync outcome, for concrete statements. -/
def syncCounts (x : Except FsError (SyncResult × MockState)) :
    Option (Nat × Nat × Nat × List String) :=
  match x with
  | .ok (r, _) => some (r.files_copied, r.files_skipped, r.directories_created, r.errors)
  | .error _ => none

/-- Whether a file is present at a path in the final store of a sync outcome. -/
def okStateHasFile (x : Except FsError (SyncResult × MockState)) (p : FsPath) : Bool :=
  match x with
  | .ok (_, st) => st.files.any fun fp => decide (fp.1 = p)
  | .error _ => false

/-- The encoder as invoked in an ambient filesystem state, the state
abstracted by its is-file predicate, which the Rust function queries at the
argument path (file_path_converter.rs line 8). -/
def dir_path_to_claude_code_stype_in (fsIsFile : String → Bool) (p : String) :
    Except String String :=
  dir_path_to_claude_code_stype (fsIsFile p) p

/-! ## Concrete stores used by the witnesses and counterexamples -/

/-- A store with a stale target file: source time 5, target time 3. -/
def stC3 : MockState :=
  { files := [(["s", "f"], ⟨[], 5⟩), (["t", "g"], ⟨[], 3⟩)], dirs := [], now := 0 }

/-- A store where the subdirectory sub of the source root is not registered,
so listing it fails with NotFound. -/
def stC7 : MockState :=
  { files := [], dirs := [["source"], ["target"]], now := 0 }

/-- A store where the target copy exists but the source file has vanished:
the metadata read of the staleness check on the source fails. -/
def stC2 : MockState :=
  { files := [(["target", "proj", "f"], ⟨[], 3⟩)],
    dirs := [["source"], ["target"], ["source", "proj"], ["target", "proj"]],
    now := 0 }

/-- An adversarial storage capability: listing the source root yields one
file entry, nothing exists, directory creation succeeds, and copying always
fails as if the source vanished between listing and copy. -/
def failFS : FSOps Unit :=
  { list_directory := fun _ p =>
      if p = ["src"] then .ok [⟨["src", "f"], 5, false⟩] else .ok []
    get_metadata := fun _ p => .error (.NotFound p)
    copy_file := fun _ src _ => .error (.NotFound src)
    create_directory := fun _ _ => .ok ()
    pathExists := fun _ _ => .ok false
    set_modified_time := fun _ _ _ => .ok () }

/-- A store with one source child directory whose name matches no identifier
prefix, and another that looks like an encoded identifier. -/
def stC4 : MockState :=
  { files := [(["source", "-Users-x", "f1"], ⟨[1], 50⟩),
      (["source", "zzz", "f2"], ⟨[2], 50⟩)],
    dirs := [["source"], ["target"], ["source", "-Users-x"], ["source", "zzz"]],
    now := 100 }

/-- The store stC4 after the per-entry step on its zzz directory entry:
the mirrored target directory was created. -/
def stC4dir : MockState :=
  { files := [(["source", "-Users-x", "f1"], ⟨[1], 50⟩),
      (["source", "zzz", "f2"], ⟨[2], 50⟩)],
    dirs := [["source"], ["target"], ["source", "-Users-x"], ["source", "zzz"],
      ["target", "zzz"]],
    now := 100 }

/-- A store with one source file directly under the source root whose
hyphenated name expands to a nested target path. -/
def stC5 : MockState :=
  { files := [(["source", "a-b"], ⟨[1], 50⟩)],
    dirs := [["source"], ["target"]], now := 100 }

/-- A store with one fresh source file below a project directory. -/
def stC10 : MockState :=
  { files := [(["source", "proj", "f"], ⟨[1], 50⟩)],
    dirs := [["source"], ["target"], ["source", "proj"]], now := 100 }

/-- The store stC10 after the wet per-entry step on its file: the target
parent was created, the bytes copied, and the copy stamped with the clock. -/
def stC10after : MockState :=
  { files := [(["source", "proj", "f"], ⟨[1], 50⟩),
      (["target", "proj", "f"], ⟨[1], 100⟩)],
    dirs := [["source"], ["target"], ["source", "proj"], ["target", "proj"]],
    now := 100 }

/-! ## Helper lemmas for the codec round trip -/

/-- A list whose head is not a slash loses nothing to dropWhile. -/
theorem dropWhile_slash_of_head (l : List Char) (h : l.head? ≠ some '/') :
    l.dropWhile (fun c => decide (c = '/')) = l := by
  cases l with
  | nil => rfl
  | cons c t =>
    have hc : c ≠ '/' := by
      intro hcc
      exact h (by simp [hcc])
    simp [List.dropWhile, hc]

/-- Slash-to-hyphen, dot-to-hyphen, hyphen-to-slash is the identity on
characters lists free of hyphens and dots. -/
theorem codec_char_roundtrip (l : List Char) (h2 : '-' ∉ l) (h3 : '.' ∉ l) :
    ((l.map fun c => if c = '/' then '-' else c).map
        fun c => if c = '.' then '-' else c).map
      (fun c => if c = '-' then '/' else c) = l := by
  induction l with
  | nil => rfl
  | cons c t ih =>
    have hc2 : c ≠ '-' := fun hc => h2 (by simp [hc])
    have hc3 : c ≠ '.' := fun hc => h3 (by simp [hc])
    have ht2 : '-' ∉ t := fun hm => h2 (List.mem_cons_of_mem _ hm)
    have ht3 : '.' ∉ t := fun hm => h3 (List.mem_cons_of_mem _ hm)
    simp only [List.map_cons]
    rw [ih ht2 ht3]
    by_cases hc : c = '/'
    · subst hc; norm_num
    · simp [hc, hc2, hc3]

/-- Evaluation of the encoder on an absolute path whose head segment does not
begin with a second slash. -/
theorem encode_eval (rest : List Char) (h1 : rest.head? ≠ some '/') :
    dir_path_to_claude_code_stype false ⟨'/' :: rest⟩ =
      .ok ⟨'-' :: ((rest.map fun c => if c = '/' then '-' else c).map
        fun c => if c = '.' then '-' else c)⟩ := by
  have htrim : trimLeadingSlashes ⟨'/' :: rest⟩ = ⟨rest⟩ := by
    unfold trimLeadingSlashes
    congr 1
    show List.dropWhile _ ('/' :: rest) = rest
    rw [List.dropWhile_cons, if_pos (by decide)]
    exact dropWhile_slash_of_head rest h1
  unfold dir_path_to_claude_code_stype
  rw [htrim]
  rfl

/-! ## C1: round trip of the whole-path codec -/

/-- C1, counterexample: the claim asserts that decode after encode restores
every absolute path with no literal hyphen in any segment and no trailing
extension.  The path /a.b/c satisfies those hypotheses, yet the encoder also
rewrites its interior dot to a hyphen (file_path_converter.rs line 17), so
decoding yields only /a/b/c and the original path is not in the returned
set. -/
theorem C1_counterexample :
    dir_path_to_claude_code_stype false "/a.b/c" = .ok "-a-b-c" ∧
    "/a.b/c" ∉ claude_code_stype_to_file_path "-a-b-c" := by
  constructor
  · decide
  · decide

/-- C1, amended: for absolute paths whose remainder after the single leading
slash starts with no further slash and contains no hyphen and no dot, the
encoder succeeds and decode of the encoded token returns exactly the
singleton set holding the original path. -/
theorem C1_roundtrip (rest : List Char) (h1 : rest.head? ≠ some '/')
    (h2 : '-' ∉ rest) (h3 : '.' ∉ rest) :
    (dir_path_to_claude_code_stype false ⟨'/' :: rest⟩).isOk = true ∧
    ∀ tok, dir_path_to_claude_code_stype false ⟨'/' :: rest⟩ = .ok tok →
      claude_code_stype_to_file_path tok = [⟨'/' :: rest⟩] := by
  have henc := encode_eval rest h1
  constructor
  · rw [henc]; rfl
  · intro tok htok
    rw [henc] at htok
    injection htok with htok
    subst htok
    have hdec : claude_code_stype_to_file_path
        ⟨'-' :: ((rest.map fun c => if c = '/' then '-' else c).map
          fun c => if c = '.' then '-' else c)⟩ =
        [⟨'/' :: (((rest.map fun c => if c = '/' then '-' else c).map
          fun c => if c = '.' then '-' else c).map
            fun c => if c = '-' then '/' else c)⟩] := rfl
    rw [hdec, codec_char_roundtrip rest h2 h3]

/-- C1, witness for the amended round trip at the concrete path /ab. -/
theorem C1_roundtrip_witness :
    ("ab".data.head? ≠ some '/' ∧ '-' ∉ "ab".data ∧ '.' ∉ "ab".data) ∧
    claude_code_stype_to_file_path "-ab" = ["/ab"] :=
  ⟨⟨by decide, by decide, by decide⟩,
    (C1_roundtrip "ab".data (by decide) (by decide) (by decide)).2 "-ab" (by decide)⟩

/-! ## C6: domain-suffix-aware segment conversion -/

/-- C6: convert_hyphenated_path maps the identifier of a path containing a
recognized domain suffix to the slash-separated form with the dotted suffix
kept intact and the leading separator stripped; every recognized suffix
(.com, .org, .net, .io, .dev, .ai) survives, also when several occur in one
segment. -/
theorem C6_domain_suffix_conversion :
    convert_hyphenated_path "-Users-dev-github.com-project" =
      "Users/dev/github.com/project" ∧
    convert_hyphenated_path "-Users-example.org-test.io-project" =
      "Users/example.org/test.io/project" ∧
    convert_hyphenated_path "-x-a.com-y" = "x/a.com/y" ∧
    convert_hyphenated_path "-x-a.org-y" = "x/a.org/y" ∧
    convert_hyphenated_path "-x-a.net-y" = "x/a.net/y" ∧
    convert_hyphenated_path "-x-a.io-y" = "x/a.io/y" ∧
    convert_hyphenated_path "-x-a.dev-y" = "x/a.dev/y" ∧
    convert_hyphenated_path "-x-a.ai-y" = "x/a.ai/y" := by
  refine ⟨?_, ?_, ?_, ?_, ?_, ?_, ?_, ?_⟩ <;> decide

/-! ## C8: encode output shape and its dependence on the filesystem -/

/-- C8, counterexample: the claim asserts the encoder is a pure function of
the path alone, yielding the same outcome under any two filesystem states.
The same absolute path /a succeeds in a state where it is not a file and
fails in a state where it is one, so the outcome depends on the filesystem
state. -/
theorem C8_counterexample :
    dir_path_to_claude_code_stype_in (fun _ => false) "/a" = .ok "-a" ∧
    dir_path_to_claude_code_stype_in (fun _ => true) "/a" =
      .error "Path must be a directory, not a file" ∧
    dir_path_to_claude_code_stype_in (fun _ => false) "/a" ≠
      dir_path_to_claude_code_stype_in (fun _ => true) "/a" := by
  refine ⟨by decide, by decide, by decide⟩

/-- C8, amended: the encoder is a function of the path and of whether the
path is currently a file — two states agreeing on that query give identical
outcomes; every non-absolute input fails with the error naming the violated
constraint; every token produced starts with a hyphen. -/
theorem C8_encode_shape (fsIsFile fsIsFile' : String → Bool) (p : String)
    (hsame : fsIsFile p = fsIsFile' p) :
    dir_path_to_claude_code_stype_in fsIsFile p =
      dir_path_to_claude_code_stype_in fsIsFile' p ∧
    (isAbsolutePath p = false →
      dir_path_to_claude_code_stype_in fsIsFile p = .error "Path must be absolute") ∧
    (∀ tok, dir_path_to_claude_code_stype_in fsIsFile p = .ok tok →
      tok.data.head? = some '-') := by
  refine ⟨?_, ?_, ?_⟩
  · unfold dir_path_to_claude_code_stype_in
    rw [hsame]
  · intro habs
    unfold dir_path_to_claude_code_stype_in dir_path_to_claude_code_stype
    rw [habs]
    rfl
  · intro tok htok
    unfold dir_path_to_claude_code_stype_in dir_path_to_claude_code_stype at htok
    by_cases habs : isAbsolutePath p
    · rw [habs] at htok
      by_cases hf : fsIsFile p
      · rw [hf] at htok
        simp at htok
      · rw [Bool.not_eq_true] at hf
        rw [hf] at htok
        simp only [Bool.not_false, if_true, Bool.false_eq_true, if_false] at htok
        injection htok with htok
        subst htok
        rfl
    · rw [Bool.not_eq_true] at habs
      rw [habs] at htok
      simp at htok

/-- C8, witness: two concretely different filesystem states that agree at
the path /a give the same outcome there, and the produced token starts with
a hyphen. -/
theorem C8_encode_shape_witness :
    ((fun s => decide (s = "/b")) "/a" = (fun (_ : String) => false) "/a") ∧
    "-a".data.head? = some '-' :=
  ⟨by decide,
    (C8_encode_shape (fun s => decide (s = "/b")) (fun _ => false) "/a"
      (by decide)).2.2 "-a" (by decide)⟩

/-! ## C3: the staleness rule -/

/-- A successful HashMap lookup makes the corresponding existence scan
positive. -/
theorem any_of_find?_eq_some {α : Type} (q : α → Bool) (l : List α) (x : α)
    (h : l.find? q = some x) : l.any q = true := by
  induction l with
  | nil => simp [List.find?] at h
  | cons a t ih =>
    simp only [List.find?] at h
    cases hq : q a with
    | true => simp [List.any_cons, hq]
    | false =>
      rw [hq] at h
      simp only [List.any_cons, hq, Bool.false_or]
      exact ih h

theorem anyFile_of_lookup {st : MockState} {p : FsPath} {f : MockFile}
    (h : lookupFile st p = some f) :
    (st.files.any fun fp => decide (fp.1 = p)) = true := by
  unfold lookupFile at h
  cases hf : st.files.find? (fun fp => decide (fp.1 = p)) with
  | none => rw [hf] at h; simp at h
  | some x => exact any_of_find?_eq_some _ _ _ hf

/-- C3: over the mock store, should_copy_file answers true whenever the
target does not exist, and when source and target are both files it answers
true exactly when the modified time of the source is strictly greater than
that of the target (equal timestamps give false, hence skip). -/
theorem C3_staleness_rule (st : MockState) (source target : FsPath) :
    (mockPathExists st target = .ok false →
      should_copy_file mockFS st source target = .ok true) ∧
    (∀ f g, lookupFile st source = some f → lookupFile st target = some g →
      should_copy_file mockFS st source target =
        .ok (decide (f.modified > g.modified))) := by
  constructor
  · intro hex
    unfold should_copy_file
    rw [show mockFS.pathExists = mockPathExists from rfl]
    simp only [hex]
    rfl
  · intro f g hsrc htgt
    have hany : (st.files.any fun fp => decide (fp.1 = target)) = true :=
      anyFile_of_lookup htgt
    unfold should_copy_file
    rw [show mockFS.pathExists = mockPathExists from rfl,
      show mockFS.get_metadata = mockGetMetadata from rfl]
    unfold mockPathExists mockGetMetadata
    simp only [hany, Bool.true_or, Bool.not_true, Bool.false_eq_true, if_false,
      hsrc, htgt]

/-- C3, witness: a source file with time 5 against a target file with time 3
is copied, and the couple of lookups that feed the rule hold concretely. -/
theorem C3_staleness_rule_witness :
    (lookupFile stC3 ["s", "f"] = some ⟨[], 5⟩ ∧
      lookupFile stC3 ["t", "g"] = some ⟨[], 3⟩) ∧
    should_copy_file mockFS stC3 ["s", "f"] ["t", "g"] = .ok true :=
  ⟨⟨by decide, by decide⟩,
    (C3_staleness_rule stC3 ["s", "f"] ["t", "g"]).2
      ⟨[], 5⟩ ⟨[], 3⟩ (by decide) (by decide)⟩

/-! ## Helper lemmas about the sync loop -/

/-- Stripping a path from itself succeeds with the empty relative path. -/
theorem stripPrefixPath_self (p : FsPath) : stripPrefixPath p p = .ok [] := by
  unfold stripPrefixPath
  rw [if_pos]
  · rw [List.drop_length]
  · rw [List.isPrefixOf_iff_prefix]

/-- An empty queue ends the loop at any fuel. -/
theorem syncLoop_nil {σ : Type} (fs : FSOps σ) (opts : SyncOptions) (now : Nat)
    (source_dir target_dir : FsPath) (fuel : Nat) (st : σ) (res : SyncResult) :
    syncLoop fs opts now source_dir target_dir fuel st [] res = .ok (res, st) := by
  cases fuel <;> rfl

/-- A directory whose listing fails is dropped from the queue: the loop
continues on the remaining queue with state and result untouched. -/
theorem syncLoop_skip {σ : Type} (fs : FSOps σ) (opts : SyncOptions) (now : Nat)
    (source_dir target_dir : FsPath) (fuel : Nat) (st : σ) (d : FsPath)
    (queue : List FsPath) (res : SyncResult) (rel : FsPath) (e : FsError)
    (hstrip : stripPrefixPath d source_dir = .ok rel)
    (hlist : fs.list_directory st d = .error e) :
    syncLoop fs opts now source_dir target_dir (fuel + 1) st (d :: queue) res =
      syncLoop fs opts now source_dir target_dir fuel st queue res := by
  conv_lhs => rw [syncLoop]
  rw [hstrip, hlist]

/-! ## C7: listing failures skip the subtree and never abort the run -/

/-- C7: for every directory in the work queue whose listing fails, the loop
drops that directory and continues draining the rest of the queue with state
and result unchanged — the overall outcome is exactly the outcome of the run
without that directory, so a listing failure alone never makes sync return
an error. -/
theorem C7_listing_failure_recovery {σ : Type} (fs : FSOps σ)
    (opts : SyncOptions) (now : Nat) (source_dir target_dir : FsPath)
    (fuel : Nat) (st : σ) (d : FsPath) (queue : List FsPath) (res : SyncResult)
    (rel : FsPath) (e : FsError)
    (hstrip : stripPrefixPath d source_dir = .ok rel)
    (hlist : fs.list_directory st d = .error e) :
    syncLoop fs opts now source_dir target_dir (fuel + 1) st (d :: queue) res =
      syncLoop fs opts now source_dir target_dir fuel st queue res :=
  syncLoop_skip fs opts now source_dir target_dir fuel st d queue res rel e
    hstrip hlist

/-- C7, witness: a queued subdirectory missing from the mock store is skipped
and the loop ends successfully on the emptied queue. -/
theorem C7_listing_failure_recovery_witness :
    (stripPrefixPath ["source", "sub"] ["source"] = .ok ["sub"] ∧
      mockFS.list_directory stC7 ["source", "sub"] =
        .error (.NotFound ["source", "sub"])) ∧
    syncLoop mockFS ⟨false, false⟩ 0 ["source"] ["target"] 3 stC7
        [["source", "sub"]] ⟨0, 0, 0, []⟩ =
      syncLoop mockFS ⟨false, false⟩ 0 ["source"] ["target"] 2 stC7 []
        ⟨0, 0, 0, []⟩ :=
  ⟨⟨by decide, by decide⟩,
    C7_listing_failure_recovery mockFS ⟨false, false⟩ 0 ["source"] ["target"]
      2 stC7 ["source", "sub"] [] ⟨0, 0, 0, []⟩ ["sub"]
      (.NotFound ["source", "sub"]) (by decide) (by decide)⟩

/-- Evaluation of the sync preamble when the target root already exists. -/
theorem sync_eval_exists_true {σ : Type} (fs : FSOps σ) (st : σ)
    (src tgt : FsPath) (opts : SyncOptions) (now fuel : Nat)
    (hex : fs.pathExists st tgt = .ok true) :
    sync fs st src tgt opts now fuel =
      syncLoop fs opts now src tgt fuel st [src] ⟨0, 0, 0, []⟩ := by
  unfold sync
  rw [hex]
  rfl

/-- Evaluation of the sync preamble when the target root is missing and the
run is dry: nothing is created but the creation is counted. -/
theorem sync_eval_exists_false_dry {σ : Type} (fs : FSOps σ) (st : σ)
    (src tgt : FsPath) (opts : SyncOptions) (now fuel : Nat)
    (hex : fs.pathExists st tgt = .ok false) (hdry : opts.dry_run = true) :
    sync fs st src tgt opts now fuel =
      syncLoop fs opts now src tgt fuel st [src] ⟨0, 0, 1, []⟩ := by
  unfold sync
  rw [hex, hdry]
  rfl

/-- Evaluation of the sync preamble when the target root is missing and the
run is wet: the root is created and counted. -/
theorem sync_eval_exists_false_wet {σ : Type} (fs : FSOps σ) (st st' : σ)
    (src tgt : FsPath) (opts : SyncOptions) (now fuel : Nat)
    (hex : fs.pathExists st tgt = .ok false) (hdry : opts.dry_run = false)
    (hcr : fs.create_directory st tgt = .ok st') :
    sync fs st src tgt opts now fuel =
      syncLoop fs opts now src tgt fuel st' [src] ⟨0, 0, 1, []⟩ := by
  unfold sync
  rw [hex, hdry, hcr]
  rfl

/-! ## C9: a missing source root yields an empty successful result -/

/-- C9: when the source root cannot be listed (it is absent from the mock
directory set of the mock store), sync still returns Ok, with zero copied files, zero
skipped files and no error strings; only the target-root-creation counter
may be nonzero, so a missing source root is indistinguishable in those
fields from an empty one. -/
theorem C9_missing_source_root_ok (st : MockState) (src tgt : FsPath)
    (opts : SyncOptions) (now fuel : Nat)
    (hne : src ≠ []) (hnod : src ∉ st.dirs) (hst : src ≠ tgt) :
    sync mockFS st src tgt opts now (fuel + 1) =
      .ok ({ files_copied := 0, files_skipped := 0,
             directories_created :=
               if (st.files.any fun fp => decide (fp.1 = tgt)) || decide (tgt ∈ st.dirs)
               then 0 else 1,
             errors := [] },
           if ((st.files.any fun fp => decide (fp.1 = tgt)) || decide (tgt ∈ st.dirs))
               || opts.dry_run then st
           else { st with dirs := st.dirs ++ [tgt] }) := by
  have hskip : ∀ (st' : MockState) (res : SyncResult), src ∉ st'.dirs →
      syncLoop mockFS opts now src tgt (fuel + 1) st' [src] res = .ok (res, st') := by
    intro st' res h
    have hlist : mockFS.list_directory st' src = .error (.NotFound src) := by
      show mockList st' src = _
      unfold mockList
      rw [if_pos ⟨hne, h⟩]
    rw [syncLoop_skip mockFS opts now src tgt fuel st' src [] res []
      (.NotFound src) (stripPrefixPath_self src) hlist]
    exact syncLoop_nil mockFS opts now src tgt fuel st' res
  by_cases hbb : ((st.files.any fun fp => decide (fp.1 = tgt)) || decide (tgt ∈ st.dirs)) = true
  · have hex : mockFS.pathExists st tgt = .ok true := by
      show mockPathExists st tgt = _
      unfold mockPathExists
      rw [hbb]
    rw [sync_eval_exists_true mockFS st src tgt opts now (fuel + 1) hex,
      hskip st _ hnod]
    simp [hbb]
  · have hbf : ((st.files.any fun fp => decide (fp.1 = tgt)) || decide (tgt ∈ st.dirs)) = false := by
      rwa [Bool.not_eq_true] at hbb
    have hex : mockFS.pathExists st tgt = .ok false := by
      show mockPathExists st tgt = _
      unfold mockPathExists
      rw [hbf]
    have hnd : tgt ∉ st.dirs := by
      rcases Bool.or_eq_false_iff.mp hbf with ⟨-, h2⟩
      exact of_decide_eq_false h2
    by_cases hdry : opts.dry_run = true
    · rw [sync_eval_exists_false_dry mockFS st src tgt opts now (fuel + 1) hex hdry,
        hskip st _ hnod]
      simp [hbf, hdry]
    · have hdf : opts.dry_run = false := by rwa [Bool.not_eq_true] at hdry
      have hcr : mockFS.create_directory st tgt =
          .ok { st with dirs := st.dirs ++ [tgt] } := by
        show mockCreateDirectory st tgt = _
        unfold mockCreateDirectory
        rw [if_neg hnd]
      have hout : src ∉ ({ st with dirs := st.dirs ++ [tgt] } : MockState).dirs := by
        simp only [List.mem_append, List.mem_singleton]
        rintro (h | h)
        · exact hnod h
        · exact hst h
      rw [sync_eval_exists_false_wet mockFS st _ src tgt opts now (fuel + 1) hex hdf hcr,
        hskip _ _ hout]
      simp [hbf, hdf]

/-- C9, witness: syncing from the absent source root missing into the store
that already has the target root returns Ok with all file counters zero. -/
theorem C9_missing_source_root_ok_witness :
    ((["missing"] : FsPath) ≠ [] ∧ (["missing"] : FsPath) ∉ stC7.dirs ∧
      (["missing"] : FsPath) ≠ ["target"]) ∧
    sync mockFS stC7 ["missing"] ["target"] ⟨false, false⟩ 0 5 =
      .ok (⟨0, 0, 0, []⟩, stC7) :=
  ⟨⟨by decide, by decide, by decide⟩,
    C9_missing_source_root_ok stC7 ["missing"] ["target"] ⟨false, false⟩ 0 4
      (by decide) (by decide) (by decide)⟩


/-! ## C10: each file entry is accounted exactly once -/

/-- The parent-ensuring step never touches the three file-accounting fields. -/
theorem ensureParentDir_fields {σ : Type} (fs : FSOps σ) (st : σ)
    (res : SyncResult) (tp : FsPath) (pr : σ × SyncResult)
    (h : ensureParentDir fs st res tp = .ok pr) :
    pr.2.files_copied = res.files_copied ∧
    pr.2.files_skipped = res.files_skipped ∧
    pr.2.errors = res.errors := by
  unfold ensureParentDir at h
  split at h
  · split at h
    · exact absurd h (by simp)
    · split at h
      · split at h
        · exact absurd h (by simp)
        · simp only [Except.ok.injEq] at h
          subst h
          exact ⟨rfl, rfl, rfl⟩
      · simp only [Except.ok.injEq] at h
        subst h
        exact ⟨rfl, rfl, rfl⟩
  · simp only [Except.ok.injEq] at h
    subst h
    exact ⟨rfl, rfl, rfl⟩

/-- C10: whenever the per-entry step of the traversal succeeds on a file
entry, exactly one of the three accounting fields advances, by exactly one:
either the copied counter, or the skipped counter, or the error list; a file
entry also contributes nothing to the traversal queue.  Since the loop folds
this step over every listed entry, a sync that ends in Ok accounts every
encountered file entry exactly once. -/
theorem C10_file_accounting {σ : Type} (fs : FSOps σ) (opts : SyncOptions)
    (now : Nat) (source_dir target_dir : FsPath) (st : σ) (res : SyncResult)
    (entry : EntryMetadata) (st' : σ) (res' : SyncResult) (enq : List FsPath)
    (hfile : entry.is_directory = false)
    (hok : processEntry fs opts now source_dir target_dir st res entry =
      .ok (st', res', enq)) :
    enq = [] ∧
    (res'.files_copied + res'.files_skipped + res'.errors.length =
      res.files_copied + res.files_skipped + res.errors.length + 1) ∧
    ((res'.files_copied = res.files_copied + 1 ∧
        res'.files_skipped = res.files_skipped ∧ res'.errors = res.errors) ∨
      (res'.files_copied = res.files_copied ∧
        res'.files_skipped = res.files_skipped + 1 ∧ res'.errors = res.errors) ∨
      (res'.files_copied = res.files_copied ∧
        res'.files_skipped = res.files_skipped ∧
        res'.errors.length = res.errors.length + 1)) := by
  unfold processEntry at hok
  cases hstrip : stripPrefixPath entry.path source_dir with
  | error e => simp only [hstrip] at hok; exact absurd hok (by simp)
  | ok rel =>
    simp only [hstrip] at hok
    cases hconv : convert_directory_name rel with
    | error e => simp only [hconv] at hok; exact absurd hok (by simp)
    | ok conv =>
      simp only [hconv, hfile, Bool.false_eq_true, if_false] at hok
      cases hsc : should_copy_file fs st entry.path (target_dir ++ conv) with
      | error e =>
        simp only [hsc, Except.ok.injEq, Prod.mk.injEq] at hok
        obtain ⟨-, hres, henq⟩ := hok
        subst hres
        refine ⟨henq.symm, by simp [Nat.add_assoc, Nat.add_comm, Nat.add_left_comm], Or.inr (Or.inr ⟨rfl, rfl, by simp⟩)⟩
      | ok b =>
        cases b with
        | false =>
          simp only [hsc, Except.ok.injEq, Prod.mk.injEq] at hok
          obtain ⟨-, hres, henq⟩ := hok
          subst hres
          exact ⟨henq.symm, by simp [Nat.add_assoc, Nat.add_comm, Nat.add_left_comm], Or.inr (Or.inl ⟨rfl, rfl, rfl⟩)⟩
        | true =>
          simp only [hsc] at hok
          cases hdry : opts.dry_run with
          | true =>
            simp only [hdry, Bool.not_true, Bool.false_eq_true, if_false] at hok
            simp only [Except.ok.injEq, Prod.mk.injEq] at hok
            obtain ⟨-, hres, henq⟩ := hok
            subst hres
            exact ⟨henq.symm, by simp [Nat.add_assoc, Nat.add_comm, Nat.add_left_comm], Or.inl ⟨rfl, rfl, rfl⟩⟩
          | false =>
            simp only [hdry, Bool.not_false, if_true] at hok
            cases hpar : ensureParentDir fs st res (target_dir ++ conv) with
            | error e => simp only [hpar] at hok; exact absurd hok (by simp)
            | ok pr =>
              obtain ⟨hc, hs, he⟩ := ensureParentDir_fields fs st res
                (target_dir ++ conv) pr hpar
              simp only [hpar] at hok
              cases hcopy : fs.copy_file pr.1 entry.path (target_dir ++ conv) with
              | error e => simp only [hcopy] at hok; exact absurd hok (by simp)
              | ok st2 =>
                simp only [hcopy, Except.ok.injEq, Prod.mk.injEq] at hok
                obtain ⟨-, hres, henq⟩ := hok
                subst hres
                refine ⟨henq.symm, by simp [hc, hs, he, Nat.add_assoc, Nat.add_comm, Nat.add_left_comm], ?_⟩
                exact Or.inl ⟨by rw [hc], by rw [hs], by rw [he]⟩

/-- C10, witness: the per-entry step on a concrete fresh file copies it and
advances exactly the copied counter. -/
theorem C10_file_accounting_witness :
    (processEntry mockFS ⟨false, false⟩ 100 ["source"] ["target"] stC10
        ⟨0, 0, 0, []⟩ ⟨["source", "proj", "f"], 50, false⟩ =
      .ok (stC10after, ⟨1, 0, 1, []⟩, [])) ∧
    (([] : List FsPath) = [] ∧
      ((1 : Nat) + 0 + 0 = 0 + 0 + 0 + 1) ∧
      (((1 : Nat) = 0 + 1 ∧ (0 : Nat) = 0 ∧ ([] : List String) = []) ∨
        ((1 : Nat) = 0 ∧ (0 : Nat) = 0 + 1 ∧ ([] : List String) = []) ∨
        ((1 : Nat) = 0 ∧ (0 : Nat) = 0 ∧
          ([] : List String).length = ([] : List String).length + 1))) :=
  ⟨by decide,
    C10_file_accounting mockFS ⟨false, false⟩ 100 ["source"] ["target"] stC10
      ⟨0, 0, 0, []⟩ ⟨["source", "proj", "f"], 50, false⟩ stC10after
      ⟨1, 0, 1, []⟩ [] (by decide) (by decide)⟩

/-! ## C2: per-file failure isolation -/

/-- C2, counterexample: the claim says any failure while copying a file
(including the source vanishing between listing and copy) is recorded in the
error list and never makes sync itself return an error.  Under a storage
capability whose copy fails with NotFound (the vanished source), the
question-mark on copy_file at sync/mod.rs line 114 propagates: the whole
sync call returns that error instead of recording it. -/
theorem C2_counterexample :
    sync failFS () ["src"] ["tgt"] ⟨false, false⟩ 0 5 =
      .error (.NotFound ["src", "f"]) := by decide

/-- C2, amended: only a failure of the staleness check (the exists and
metadata reads inside should_copy_file) is caught, converted to an error
string, and traversal continues; a failure while creating the parent
directory or while copying bytes propagates and aborts the sync call. -/
theorem C2_per_file_error_handling {σ : Type} (fs : FSOps σ)
    (opts : SyncOptions) (now : Nat) (source_dir target_dir : FsPath)
    (st : σ) (res : SyncResult) (entry : EntryMetadata) (rel conv : FsPath)
    (hfile : entry.is_directory = false)
    (hstrip : stripPrefixPath entry.path source_dir = .ok rel)
    (hconv : convert_directory_name rel = .ok conv) :
    (∀ e, should_copy_file fs st entry.path (target_dir ++ conv) = .error e →
      processEntry fs opts now source_dir target_dir st res entry =
        .ok (st, { res with errors := res.errors ++ [errString entry.path e] },
          [])) ∧
    (∀ e pr, should_copy_file fs st entry.path (target_dir ++ conv) = .ok true →
      opts.dry_run = false →
      ensureParentDir fs st res (target_dir ++ conv) = .ok pr →
      fs.copy_file pr.1 entry.path (target_dir ++ conv) = .error e →
      processEntry fs opts now source_dir target_dir st res entry = .error e) ∧
    (∀ e, should_copy_file fs st entry.path (target_dir ++ conv) = .ok true →
      opts.dry_run = false →
      ensureParentDir fs st res (target_dir ++ conv) = .error e →
      processEntry fs opts now source_dir target_dir st res entry = .error e) := by
  refine ⟨?_, ?_, ?_⟩
  · intro e hsc
    unfold processEntry
    simp only [hstrip, hconv, hfile, Bool.false_eq_true, if_false, hsc]
  · intro e pr hsc hdry hpar hcopy
    unfold processEntry
    simp only [hstrip, hconv, hfile, Bool.false_eq_true, if_false, hsc, hdry,
      Bool.not_false, if_true, hpar, hcopy]
  · intro e hsc hdry hpar
    unfold processEntry
    simp only [hstrip, hconv, hfile, Bool.false_eq_true, if_false, hsc, hdry,
      Bool.not_false, if_true, hpar]

/-- C2, witness, on the vanished-source store: the staleness check fails
with NotFound on the source and the entry is recorded as an error string
while the step still returns Ok. -/
theorem C2_per_file_error_handling_witness :
    ((⟨["source", "proj", "f"], 5, false⟩ : EntryMetadata).is_directory = false ∧
      stripPrefixPath ["source", "proj", "f"] ["source"] = .ok ["proj", "f"] ∧
      convert_directory_name ["proj", "f"] = .ok ["proj", "f"] ∧
      should_copy_file mockFS stC2 ["source", "proj", "f"]
        (["target"] ++ ["proj", "f"]) =
        .error (.NotFound ["source", "proj", "f"])) ∧
    processEntry mockFS ⟨false, false⟩ 0 ["source"] ["target"] stC2
      ⟨0, 0, 0, []⟩ ⟨["source", "proj", "f"], 5, false⟩ =
      .ok (stC2,
        ⟨0, 0, 0, [errString ["source", "proj", "f"]
          (.NotFound ["source", "proj", "f"])]⟩, []) :=
  ⟨⟨by decide, by decide, by decide, by decide⟩,
    (C2_per_file_error_handling mockFS ⟨false, false⟩ 0 ["source"] ["target"]
      stC2 ⟨0, 0, 0, []⟩ ⟨["source", "proj", "f"], 5, false⟩ ["proj", "f"]
      ["proj", "f"] (by decide) (by decide) (by decide)).1
      (.NotFound ["source", "proj", "f"]) (by decide)⟩

/-! ## C4: no identifier-prefix selection in sync -/

/-- C4, counterexample: the claim says sync takes an identifier_prefix and
only traverses direct children whose name starts with it.  The embedded
sync (sync/mod.rs lines 40-45) has no such parameter: on a store whose
source root has the child zzz, matching no identifier prefix, sync copies
the file under zzz all the same (and equally copies under -Users-x), so a
non-matching child is traversed and copied. -/
theorem C4_counterexample :
    syncCounts (sync mockFS stC4 ["source"] ["target"] ⟨false, false⟩ 100 10) =
      some (2, 0, 2, []) ∧
    okStateHasFile (sync mockFS stC4 ["source"] ["target"] ⟨false, false⟩ 100 10)
      ["target", "zzz", "f2"] = true := by
  exact ⟨by decide, by decide⟩

/-- C4, amended: sync takes no identifier_prefix argument and performs no
name-based selection — its queue is seeded with the source root itself, and
every directory entry whose per-entry step succeeds is enqueued for
traversal, whatever its name; prefix selection happens only in the caller,
which joins the encoded prefix onto the source root before calling sync. -/
theorem C4_no_prefix_selection {σ : Type} (fs : FSOps σ) (opts : SyncOptions)
    (now : Nat) (source_dir target_dir : FsPath) (st : σ) (res : SyncResult)
    (entry : EntryMetadata) (rel conv : FsPath) (st' : σ) (res' : SyncResult)
    (enq : List FsPath) (fuel : Nat) (str : σ × SyncResult)
    (hdir : entry.is_directory = true)
    (hstrip : stripPrefixPath entry.path source_dir = .ok rel)
    (hconv : convert_directory_name rel = .ok conv)
    (hok : processEntry fs opts now source_dir target_dir st res entry =
      .ok (st', res', enq)) :
    enq = [entry.path] ∧
    (∀ ex, fs.pathExists st target_dir = .ok ex →
      ((if !ex then
          match (if !opts.dry_run then fs.create_directory st target_dir
            else .ok st) with
          | .error e => .error e
          | .ok st1 => .ok (st1, (⟨0, 0, 1, []⟩ : SyncResult))
        else .ok (st, (⟨0, 0, 0, []⟩ : SyncResult))) :
          Except FsError (σ × SyncResult)) = .ok str →
      sync fs st source_dir target_dir opts now fuel =
        syncLoop fs opts now source_dir target_dir fuel str.1 [source_dir]
          str.2) := by
  constructor
  · unfold processEntry at hok
    simp only [hstrip, hconv, hdir, if_true] at hok
    cases hex : fs.pathExists st (target_dir ++ conv) with
    | error e => simp only [hex] at hok; exact absurd hok (by simp)
    | ok ex =>
      simp only [hex] at hok
      cases ex with
      | true =>
        simp only [Bool.not_true, Bool.false_eq_true, if_false] at hok
        simp only [Except.ok.injEq, Prod.mk.injEq] at hok
        exact hok.2.2.symm
      | false =>
        simp only [Bool.not_false, if_true] at hok
        cases hcr : (if !opts.dry_run then
            fs.create_directory st (target_dir ++ conv) else .ok st) with
        | error e => simp only [hcr] at hok; exact absurd hok (by simp)
        | ok st1 =>
          simp only [hcr] at hok
          simp only [Except.ok.injEq, Prod.mk.injEq] at hok
          exact hok.2.2.symm
  · intro ex hex hstr
    unfold sync
    simp only [hex, hstr]

/-- C4, witness: the directory entry named zzz, which matches no identifier
prefix, is nevertheless enqueued by the per-entry step, and sync starts its
queue at the source root itself. -/
theorem C4_no_prefix_selection_witness :
    ((⟨["source", "zzz"], 100, true⟩ : EntryMetadata).is_directory = true ∧
      processEntry mockFS ⟨false, false⟩ 100 ["source"] ["target"] stC4
        ⟨0, 0, 0, []⟩ ⟨["source", "zzz"], 100, true⟩ =
        .ok (stC4dir, ⟨0, 0, 1, []⟩, [["source", "zzz"]])) ∧
    sync mockFS stC4 ["source"] ["target"] ⟨false, false⟩ 100 10 =
      syncLoop mockFS ⟨false, false⟩ 100 ["source"] ["target"] 10 stC4
        [["source"]] ⟨0, 0, 0, []⟩ :=
  ⟨⟨by decide, by decide⟩,
    (C4_no_prefix_selection mockFS ⟨false, false⟩ 100 ["source"] ["target"]
      stC4 ⟨0, 0, 0, []⟩ ⟨["source", "zzz"], 100, true⟩ ["zzz"] ["zzz"]
      stC4dir ⟨0, 0, 1, []⟩ [["source", "zzz"]] 10 (stC4, ⟨0, 0, 0, []⟩)
      (by decide) (by decide) (by decide) (by decide)).2 true (by decide)
      (by decide)⟩

/-! ## C5: dry run -/

/-- C5, counterexample: the claim says the counts of a dry run match those
of a wet run over identical input.  On the store whose source root directly
holds the file a-b, the wet run must create the missing target parent
directory before copying (counting it), while the dry run skips that branch
entirely, so directories_created is 1 against 0. -/
theorem C5_counterexample :
    syncCounts (sync mockFS stC5 ["source"] ["target"] ⟨true, false⟩ 100 5) =
      some (1, 0, 0, []) ∧
    syncCounts (sync mockFS stC5 ["source"] ["target"] ⟨false, false⟩ 100 5) =
      some (1, 0, 1, []) := by
  exact ⟨by decide, by decide⟩

/-- Under dry run, a successful per-entry step never changes the store. -/
theorem processEntry_dry {σ : Type} (fs : FSOps σ) (opts : SyncOptions)
    (now : Nat) (source_dir target_dir : FsPath) (st : σ) (res : SyncResult)
    (entry : EntryMetadata) (st' : σ) (res' : SyncResult) (enq : List FsPath)
    (hdry : opts.dry_run = true)
    (h : processEntry fs opts now source_dir target_dir st res entry =
      .ok (st', res', enq)) :
    st' = st := by
  unfold processEntry at h
  cases hstrip : stripPrefixPath entry.path source_dir with
  | error e => simp only [hstrip] at h; exact absurd h (by simp)
  | ok rel =>
    simp only [hstrip] at h
    cases hconv : convert_directory_name rel with
    | error e => simp only [hconv] at h; exact absurd h (by simp)
    | ok conv =>
      simp only [hconv] at h
      cases hdir : entry.is_directory with
      | true =>
        simp only [hdir, if_true] at h
        cases hex : fs.pathExists st (target_dir ++ conv) with
        | error e => simp only [hex] at h; exact absurd h (by simp)
        | ok ex =>
          simp only [hex] at h
          cases ex with
          | true =>
            simp only [Bool.not_true, Bool.false_eq_true, if_false,
              Except.ok.injEq, Prod.mk.injEq] at h
            exact h.1.symm
          | false =>
            simp only [Bool.not_false, if_true, hdry, Bool.not_true,
              Bool.false_eq_true, if_false, Except.ok.injEq,
              Prod.mk.injEq] at h
            exact h.1.symm
      | false =>
        simp only [hdir, Bool.false_eq_true, if_false] at h
        cases hsc : should_copy_file fs st entry.path (target_dir ++ conv) with
        | error e =>
          simp only [hsc, Except.ok.injEq, Prod.mk.injEq] at h
          exact h.1.symm
        | ok b =>
          cases b with
          | true =>
            simp only [hsc, hdry, Bool.not_true, Bool.false_eq_true, if_false,
              Except.ok.injEq, Prod.mk.injEq] at h
            exact h.1.symm
          | false =>
            simp only [hsc, Except.ok.injEq, Prod.mk.injEq] at h
            exact h.1.symm

/-- Under dry run, a successful pass over a listing never changes the store. -/
theorem processEntries_dry {σ : Type} (fs : FSOps σ) (opts : SyncOptions)
    (now : Nat) (source_dir target_dir : FsPath) (hdry : opts.dry_run = true) :
    ∀ (entries : List EntryMetadata) (st : σ) (res : SyncResult) (st' : σ)
      (res' : SyncResult) (enq : List FsPath),
      processEntries fs opts now source_dir target_dir st res entries =
        .ok (st', res', enq) → st' = st := by
  intro entries
  induction entries with
  | nil =>
    intro st res st' res' enq h
    unfold processEntries at h
    simp only [Except.ok.injEq, Prod.mk.injEq] at h
    exact h.1.symm
  | cons e rest ih =>
    intro st res st' res' enq h
    unfold processEntries at h
    cases hpe : processEntry fs opts now source_dir target_dir st res e with
    | error err => simp only [hpe] at h; exact absurd h (by simp)
    | ok trip =>
      obtain ⟨st1, res1, dirs1⟩ := trip
      simp only [hpe] at h
      cases hrest : processEntries fs opts now source_dir target_dir st1 res1 rest with
      | error err => simp only [hrest] at h; exact absurd h (by simp)
      | ok trip2 =>
        obtain ⟨st2, res2, dirs2⟩ := trip2
        simp only [hrest, Except.ok.injEq, Prod.mk.injEq] at h
        have e1 : st1 = st :=
          processEntry_dry fs opts now source_dir target_dir st res e st1 res1
            dirs1 hdry hpe
        have e2 : st2 = st1 := ih st1 res1 st2 res2 dirs2 hrest
        rw [← h.1, e2, e1]

/-- Under dry run, the queue-draining loop never changes the store. -/
theorem syncLoop_dry {σ : Type} (fs : FSOps σ) (opts : SyncOptions)
    (now : Nat) (source_dir target_dir : FsPath) (hdry : opts.dry_run = true) :
    ∀ (fuel : Nat) (queue : List FsPath) (st : σ) (res : SyncResult)
      (r : SyncResult) (st' : σ),
      syncLoop fs opts now source_dir target_dir fuel st queue res =
        .ok (r, st') → st' = st := by
  intro fuel
  induction fuel with
  | zero =>
    intro queue st res r st' h
    cases queue with
    | nil =>
      simp only [syncLoop, Except.ok.injEq, Prod.mk.injEq] at h
      exact h.2.symm
    | cons d q =>
      simp only [syncLoop] at h
      exact absurd h (by simp)
  | succ n ih =>
    intro queue st res r st' h
    cases queue with
    | nil =>
      simp only [syncLoop, Except.ok.injEq, Prod.mk.injEq] at h
      exact h.2.symm
    | cons d q =>
      unfold syncLoop at h
      cases hstrip : stripPrefixPath d source_dir with
      | error e => simp only [hstrip] at h; exact absurd h (by simp)
      | ok rel =>
        simp only [hstrip] at h
        cases hlist : fs.list_directory st d with
        | error e =>
          simp only [hlist] at h
          exact ih q st res r st' h
        | ok entries =>
          simp only [hlist] at h
          cases hpe : processEntries fs opts now source_dir target_dir st res entries with
          | error err => simp only [hpe] at h; exact absurd h (by simp)
          | ok trip =>
            obtain ⟨st1, res1, nd⟩ := trip
            simp only [hpe] at h
            have e1 : st1 = st :=
              processEntries_dry fs opts now source_dir target_dir hdry
                entries st res st1 res1 nd hpe
            have e2 : st' = st1 := ih (q ++ nd) st1 res1 r st' h
            rw [e2, e1]

/-- C5, amended: a dry run that returns Ok leaves the store exactly as it
was — no mutating storage operation takes effect — but the returned counts
are not guaranteed to match a wet run over the same input (see the
counterexample for directories_created). -/
theorem C5_dry_run_frame {σ : Type} (fs : FSOps σ) (st : σ)
    (source_dir target_dir : FsPath) (opts : SyncOptions) (now fuel : Nat)
    (r : SyncResult) (st' : σ) (hdry : opts.dry_run = true)
    (h : sync fs st source_dir target_dir opts now fuel = .ok (r, st')) :
    st' = st := by
  unfold sync at h
  cases hex : fs.pathExists st target_dir with
  | error e => simp only [hex] at h; exact absurd h (by simp)
  | ok ex =>
    simp only [hex] at h
    cases ex with
    | true =>
      simp only [Bool.not_true, Bool.false_eq_true, if_false] at h
      exact syncLoop_dry fs opts now source_dir target_dir hdry fuel
        [source_dir] st ⟨0, 0, 0, []⟩ r st' h
    | false =>
      simp only [Bool.not_false, if_true, hdry, Bool.not_true,
        Bool.false_eq_true, if_false] at h
      exact syncLoop_dry fs opts now source_dir target_dir hdry fuel
        [source_dir] st ⟨0, 0, 1, []⟩ r st' h

/-- C5, witness: the concrete dry run over the a-b store returns Ok and the
final store is the initial one. -/
theorem C5_dry_run_frame_witness :
    ((⟨true, false⟩ : SyncOptions).dry_run = true ∧
      sync mockFS stC5 ["source"] ["target"] ⟨true, false⟩ 100 5 =
        .ok (⟨1, 0, 0, []⟩, stC5)) ∧
    stC5 = stC5 :=
  ⟨⟨by decide, by decide⟩,
    C5_dry_run_frame mockFS stC5 ["source"] ["target"] ⟨true, false⟩ 100 5
      ⟨1, 0, 0, []⟩ stC5 (by decide) (by decide)⟩
